import Mathlib

/-!
Verification development for the geosvg pipeline (`src/index.ts`).

The pipeline projects geographic coordinates onto a plane (via an external
geodesy library), optionally rescales the projection, and synthesizes an
SVG path string.  Numbers computed by the projector are modelled by `JsNum`
(exact rationals plus `NaN` and the two infinities, with IEEE-style
propagation for the operations the source uses), so that the divide-by-zero
behaviour of the rescaling step is represented faithfully.  The external
geodesy primitives (`getDistance`, `getDistanceFromLine` from geolib) and the
host math/formatting primitives (`Math.atan2`, number-to-string coercion) are
not part of the repository; they are modelled from the specification's
contract and otherwise kept abstract.
-/

namespace GeoSvg

/-- JavaScript number model: exact rationals plus `NaN` and the two
infinities.  Signed zero is not modelled; the source never produces a
negative zero on the paths verified here. -/
inductive JsNum where
  | num (q : ℚ)
  | nan
  | inf
  | ninf
deriving DecidableEq, Repr

namespace JsNum

def neg : JsNum → JsNum
  | num q => num (-q)
  | nan => nan
  | inf => ninf
  | ninf => inf

def add : JsNum → JsNum → JsNum
  | nan, _ => nan
  | _, nan => nan
  | num a, num b => num (a + b)
  | num _, inf => inf
  | num _, ninf => ninf
  | inf, num _ => inf
  | ninf, num _ => ninf
  | inf, inf => inf
  | ninf, ninf => ninf
  | inf, ninf => nan
  | ninf, inf => nan

def sub (a b : JsNum) : JsNum := a.add b.neg

def mul : JsNum → JsNum → JsNum
  | nan, _ => nan
  | _, nan => nan
  | num a, num b => num (a * b)
  | num a, inf => if a = 0 then nan else if 0 < a then inf else ninf
  | num a, ninf => if a = 0 then nan else if 0 < a then ninf else inf
  | inf, num b => if b = 0 then nan else if 0 < b then inf else ninf
  | ninf, num b => if b = 0 then nan else if 0 < b then ninf else inf
  | inf, inf => inf
  | inf, ninf => ninf
  | ninf, inf => ninf
  | ninf, ninf => inf

def div : JsNum → JsNum → JsNum
  | nan, _ => nan
  | _, nan => nan
  | num a, num b =>
      if b = 0 then (if a = 0 then nan else if 0 < a then inf else ninf)
      else num (a / b)
  | num _, inf => num 0
  | num _, ninf => num 0
  | inf, num b => if 0 ≤ b then inf else ninf
  | ninf, num b => if 0 ≤ b then ninf else inf
  | inf, inf => nan
  | inf, ninf => nan
  | ninf, inf => nan
  | ninf, ninf => nan

end JsNum

instance : Add JsNum := ⟨JsNum.add⟩

instance : Sub JsNum := ⟨JsNum.sub⟩

instance : Mul JsNum := ⟨JsNum.mul⟩

instance : Div JsNum := ⟨JsNum.div⟩

instance : Zero JsNum := ⟨JsNum.num 0⟩

/-- Geographic coordinate (decimal degrees), exactly as in the source's
`Coordinates` interface, with the float fields modelled by rationals. -/
structure Coordinates where
  latitude : ℚ
  longitude : ℚ
deriving DecidableEq, Repr

/-- Geographic bounding box, as in the source's `Bounds` interface. -/
structure Bounds where
  maxLat : ℚ
  minLat : ℚ
  maxLng : ℚ
  minLng : ℚ
deriving DecidableEq, Repr

/-- Plane point (`CartesianPoint` in the source), parameterised by the number
model: `JsNum` for the pipeline, `ℝ` for the analytic facts about the
smoothing geometry, `ℚ` for concrete evaluations. -/
structure CartesianPoint (α : Type) where
  x : α
  y : α
deriving DecidableEq, Repr

instance : Inhabited (CartesianPoint JsNum) := ⟨⟨JsNum.num 0, JsNum.num 0⟩⟩

/-- Modelled from the spec: the Geodesy Adapter contract of §4.1.  The
repository consumes `getDistance` and `getDistanceFromLine` from the external
geolib package, so they are kept abstract here.  `dist_self` is the
great-circle distance of a point to itself; `distFromLine_on_lat` is the
spec's planar idealisation (§4.1 with §9): a point sharing the latitude of a
latitude-aligned axis has perpendicular distance zero from it. -/
structure Geodesy where
  dist : Coordinates → Coordinates → ℚ → ℚ
  distFromLine : Coordinates → Coordinates → Coordinates → ℚ → ℚ
  dist_self : ∀ a acc, dist a a acc = 0
  distFromLine_on_lat : ∀ p a b acc, p.latitude = a.latitude →
    a.latitude = b.latitude → a.longitude ≠ b.longitude →
    distFromLine p a b acc = 0

/-- One step of the bounding-box fold. -/
def boundStep (b : Bounds) (q : Coordinates) : Bounds :=
  ⟨max b.maxLat q.latitude, min b.minLat q.latitude,
   max b.maxLng q.longitude, min b.minLng q.longitude⟩

/-- Modelled from the spec: geolib's `getBounds` (§4.1 `boundingBox`), the
smallest latitude/longitude-aligned rectangle containing all points.  The
spec documents the empty-list behaviour as implementation-defined; the value
returned here for `[]` is arbitrary. -/
def getBounds : List Coordinates → Bounds
  | [] => ⟨0, 0, 0, 0⟩
  | p :: ps =>
      ps.foldl boundStep ⟨p.latitude, p.latitude, p.longitude, p.longitude⟩

/-- Northwest corner `(maxLat, minLng)` of the source's `corners` record. -/
def cornerNW (b : Bounds) : Coordinates := ⟨b.maxLat, b.minLng⟩

/-- Northeast corner `(maxLat, maxLng)`. -/
def cornerNE (b : Bounds) : Coordinates := ⟨b.maxLat, b.maxLng⟩

/-- Southeast corner `(minLat, maxLng)` (present in the source, unused). -/
def cornerSE (b : Bounds) : Coordinates := ⟨b.minLat, b.maxLng⟩

/-- Southwest corner `(minLat, minLng)`. -/
def cornerSW (b : Bounds) : Coordinates := ⟨b.minLat, b.minLng⟩

/-- The source's `getDistance(...xAxis, accuracy)`: great-circle length of
the NW→NE axis. -/
def absoluteWidth (G : Geodesy) (points : List Coordinates) (accuracy : ℚ) : ℚ :=
  G.dist (cornerNW (getBounds points)) (cornerNE (getBounds points)) accuracy

/-- The source's `getDistance(...yAxis, accuracy)`: great-circle length of
the NW→SW axis. -/
def absoluteHeight (G : Geodesy) (points : List Coordinates) (accuracy : ℚ) : ℚ :=
  G.dist (cornerNW (getBounds points)) (cornerSW (getBounds points)) accuracy

/-- Modelled from the spec: JavaScript `Math.max` on two finite numbers. -/
def mathMax (a b : ℚ) : ℚ := if a ≤ b then b else a

/-- The source's `options.scale ??= Math.max(absoluteWidth, absoluteHeight)`:
the scale actually used by an invocation. -/
def resolvedScale (G : Geodesy) (points : List Coordinates) (accuracy : ℚ)
    (scale : Option ℚ) : ℚ :=
  scale.getD (mathMax (absoluteWidth G points accuracy) (absoluteHeight G points accuracy))

/-- The source's
`absoluteWidth > absoluteHeight ? [scale, scale * (h / w)] : [scale * (w / h), scale]`,
carried out in JavaScript float arithmetic. -/
def scaledDims (G : Geodesy) (points : List Coordinates) (accuracy : ℚ)
    (scale : Option ℚ) : JsNum × JsNum :=
  let aw := absoluteWidth G points accuracy
  let ah := absoluteHeight G points accuracy
  let sc := resolvedScale G points accuracy scale
  if aw > ah then
    (JsNum.num sc, JsNum.num sc * (JsNum.num ah / JsNum.num aw))
  else
    (JsNum.num sc * (JsNum.num aw / JsNum.num ah), JsNum.num sc)

/-- The source's `multiplier = width / absoluteWidth`. -/
def multiplier (G : Geodesy) (points : List Coordinates) (accuracy : ℚ)
    (scale : Option ℚ) : JsNum :=
  (scaledDims G points accuracy scale).1 / JsNum.num (absoluteWidth G points accuracy)

/-- The source's `CartesianOptions`, after resolution of absent fields to
the module defaults (`accuracy` always present; `scale` genuinely optional). -/
structure CartesianOptions where
  accuracy : ℚ
  scale : Option ℚ
deriving DecidableEq, Repr

/-- Result record of `generateCartesianDetails`. -/
structure CartesianDetails where
  points : List (CartesianPoint JsNum)
  width : JsNum
  height : JsNum
deriving DecidableEq, Repr

/-- The value computation of the source's `generateCartesianDetails`:
bounding box, corners, axes, absolute dimensions, scale resolution, rescale,
and per-point perpendicular-distance projection (x from the NW→SW axis,
y from the NW→NE axis), with the rescaling arithmetic in float semantics. -/
def generateCartesianDetails (G : Geodesy) (points : List Coordinates)
    (options : CartesianOptions) : CartesianDetails :=
  let b := getBounds points
  let nw := cornerNW b
  let ne := cornerNE b
  let sw := cornerSW b
  let dims := scaledDims G points options.accuracy options.scale
  let m := multiplier G points options.accuracy options.scale
  { points := points.map fun p =>
      ⟨JsNum.num (G.distFromLine p nw sw options.accuracy) * m,
       JsNum.num (G.distFromLine p nw ne options.accuracy) * m⟩,
    width := dims.1,
    height := dims.2 }

/-- The source's `generateCartesianDetails` together with its write effects:
`options ??= defaultOptions` aliases the module-level defaults when the
caller omits options, and `options.scale ??= ...` then assigns through that
alias.  The result is the returned record, the module defaults after the
call, and the caller-supplied record after the call. -/
def generateCartesianDetailsFull (G : Geodesy) (points : List Coordinates)
    (options : Option CartesianOptions) (defaults : CartesianOptions) :
    CartesianDetails × CartesianOptions × Option CartesianOptions :=
  let o := options.getD defaults
  let o' : CartesianOptions :=
    { o with scale := some (resolvedScale G points o.accuracy o.scale) }
  (generateCartesianDetails G points o,
   if options.isSome then defaults else o',
   options.map fun _ => o')

/-- Rational absolute value written so that the kernel can evaluate it on
concrete inputs. -/
def ratAbs (q : ℚ) : ℚ := if q < 0 then -q else q

/-- Concrete flat geodesy used to evaluate theorems on concrete inputs:
taxicab distance on raw degree coordinates.  It satisfies the adapter
contract; the `accuracy` argument is ignored. -/
def flatDist (a b : Coordinates) (_accuracy : ℚ) : ℚ :=
  ratAbs (a.latitude - b.latitude) + ratAbs (a.longitude - b.longitude)

/-- Perpendicular distance for `flatDist`: for an axis-aligned segment this
is the offset in the perpendicular coordinate. -/
def flatDistFromLine (p a b : Coordinates) (acc : ℚ) : ℚ :=
  if a.latitude = b.latitude then
    (if a.longitude = b.longitude then flatDist p a acc
     else ratAbs (p.latitude - a.latitude))
  else if a.longitude = b.longitude then ratAbs (p.longitude - a.longitude)
  else 0

def flatGeodesy : Geodesy where
  dist := flatDist
  distFromLine := flatDistFromLine
  dist_self := by intro a acc; simp [flatDist, ratAbs]
  distFromLine_on_lat := by
    intro p a b acc hp hab hlng
    simp [flatDistFromLine, hab, hlng, hp, ratAbs]

/-- Modelled from the spec: the transcendental host-math operations consumed
by the Path Synthesizer (§4.3: `atan2`, cosine, sine, square root, π).  They
are JavaScript `Math` builtins, external to the repository, so the path
functions are parameterised over them. -/
structure TrigOps (α : Type) where
  cos : α → α
  sin : α → α
  atan2 : α → α → α
  sqrt : α → α
  pi : α

/-- JavaScript array access `points[i]`: `undefined` (here `none`) outside
the index range, which may be negative at the boundaries of the smoothing
window. -/
def jsGet {β : Type} (points : List β) (i : ℤ) : Option β :=
  if i < 0 then none else points[i.toNat]?

/-- The source's inner `controlPoint`: `previous`/`next` default to
`current`, the control point lies at distance `smoothing · |next − previous|`
from `current` along the `previous → next` direction (reversed by adding π
to the angle when `reverse` is set). -/
def controlPoint {α : Type} [Add α] [Sub α] [Mul α] [Zero α] (T : TrigOps α)
    (smoothing : α) (current : CartesianPoint α)
    (previous next : Option (CartesianPoint α)) (reverse : Bool) :
    CartesianPoint α :=
  let previous := previous.getD current
  let next := next.getD current
  let lengthX := next.x - previous.x
  let lengthY := next.y - previous.y
  let angle := T.atan2 lengthY lengthX + (if reverse then T.pi else 0)
  let length := T.sqrt (lengthX * lengthX + lengthY * lengthY) * smoothing
  ⟨current.x + T.cos angle * length, current.y + T.sin angle * length⟩

/-- The source's `curved`: one cubic segment
`C cpsX,cpsY cpeX,cpeY x,y`.  It is only invoked with `1 ≤ index`, and with
`point = points[index]`, so the `points[index - 1]` lookup always succeeds;
the `getD point` fallback is never exercised. -/
def curved {α : Type} [Add α] [Sub α] [Mul α] [Zero α] (T : TrigOps α)
    (ns : α → String) (smoothing : α) (points : List (CartesianPoint α))
    (point : CartesianPoint α) (index : ℕ) : String :=
  let cps := controlPoint T smoothing
    ((jsGet points ((index : ℤ) - 1)).getD point)
    (jsGet points ((index : ℤ) - 2)) (some point) false
  let cpe := controlPoint T smoothing point
    (jsGet points ((index : ℤ) - 1)) (jsGet points ((index : ℤ) + 1)) true
  "C " ++ ns cps.x ++ "," ++ ns cps.y ++ " " ++ ns cpe.x ++ "," ++ ns cpe.y
    ++ " " ++ ns point.x ++ "," ++ ns point.y

/-- The source's `straight`: one line segment `L x,y`. -/
def straight {α : Type} (ns : α → String) (point : CartesianPoint α) : String :=
  "L " ++ ns point.x ++ "," ++ ns point.y

/-- The source's `getSvgPath`: an indexed reduce producing `M x0,y0`
followed by one curved or straight segment per subsequent point.  `ns` is
the host's number-to-string coercion used by the template literals. -/
def getSvgPath {α : Type} [Add α] [Sub α] [Mul α] [Zero α] (T : TrigOps α)
    (ns : α → String) (points : List (CartesianPoint α)) (smooth : Bool)
    (smoothing : α) : String :=
  points.enum.foldl
    (fun acc ip =>
      if ip.1 = 0 then "M " ++ ns ip.2.x ++ "," ++ ns ip.2.y
      else acc ++ " " ++
        (if smooth then curved T ns smoothing points ip.2 ip.1 else straight ns ip.2))
    ""

/-- The `svg` sub-record of the source's `SvgOptions`, after defaulting. -/
structure SvgSubOptions where
  width : Option ℚ
  height : Option ℚ
  stroke : String
  strokeWidth : ℚ
  strokeLinecap : String
  strokeMiterlimit : ℚ
  fill : String
deriving DecidableEq, Repr

/-- The source's `SvgOptions`, after defaulting of absent fields. -/
structure SvgOptions where
  smooth : Bool
  smoothing : ℚ
  accuracy : ℚ
  scale : Option ℚ
  svg : SvgSubOptions
deriving DecidableEq, Repr

/-- The module-level `defaultOptions` record of the source. -/
def defaultOptions : SvgOptions :=
  { smooth := true
    smoothing := 1/5
    accuracy := 1/1000
    scale := none
    svg :=
      { width := none
        height := none
        stroke := "red"
        strokeWidth := 4
        strokeLinecap := "round"
        strokeMiterlimit := 4
        fill := "none" } }

/-- The SVG template literal of `generateSvg` (whitespace as in the source),
with `.trim()` applied. -/
def svgDocument (w h d fill stroke sw slc sml : String) : String :=
  ("<svg\n      xmlns=\"http://www.w3.org/2000/svg\"\n      width=\"" ++ w
    ++ "\"\n      height=\"" ++ h ++ "\"\n      viewBox=\"0 0 " ++ w ++ " "
    ++ h ++ "\"\n    >\n      <path\n        d=\"" ++ d ++ "\"\n        fill=\""
    ++ fill ++ "\"\n        stroke=\"" ++ stroke ++ "\"\n        stroke-width=\""
    ++ sw ++ "\"\n        stroke-linecap=\"" ++ slc
    ++ "\"\n        stroke-miterlimit=\"" ++ sml
    ++ "\"\n      />\n    </svg>").trim

/-- Result record of `generateSvgPath`. -/
structure SvgPathResult where
  path : String
  width : JsNum
  height : JsNum
deriving DecidableEq, Repr

/-- Value computation of the source's `generateSvgPath`. -/
def generateSvgPath (G : Geodesy) (T : TrigOps JsNum) (ns : JsNum → String)
    (points : List Coordinates) (options : SvgOptions) : SvgPathResult :=
  let d := generateCartesianDetails G points ⟨options.accuracy, options.scale⟩
  ⟨getSvgPath T ns d.points options.smooth (JsNum.num options.smoothing),
   d.width, d.height⟩

/-- Value computation of the source's `generateSvg`: the assembled document,
with `options.svg.width ?? width` / `options.svg.height ?? height` overrides
in the `width`, `height` and `viewBox` attributes. -/
def generateSvg (G : Geodesy) (T : TrigOps JsNum) (ns : JsNum → String)
    (points : List Coordinates) (options : SvgOptions) : String :=
  let d := generateCartesianDetails G points ⟨options.accuracy, options.scale⟩
  svgDocument
    (ns ((options.svg.width.map JsNum.num).getD d.width))
    (ns ((options.svg.height.map JsNum.num).getD d.height))
    (getSvgPath T ns d.points options.smooth (JsNum.num options.smoothing))
    options.svg.fill options.svg.stroke (ns (JsNum.num options.svg.strokeWidth))
    options.svg.strokeLinecap (ns (JsNum.num options.svg.strokeMiterlimit))

/-- The source's `generateSvg` with its write effects, analogous to
`generateCartesianDetailsFull`: the mutation of `options.scale` lands on the
module defaults when the caller omits options, otherwise on the caller's
record. -/
def generateSvgFull (G : Geodesy) (T : TrigOps JsNum) (ns : JsNum → String)
    (points : List Coordinates) (options : Option SvgOptions)
    (defaults : SvgOptions) : String × SvgOptions × Option SvgOptions :=
  let o := options.getD defaults
  let o' : SvgOptions :=
    { o with scale := some (resolvedScale G points o.accuracy o.scale) }
  (generateSvg G T ns points o,
   if options.isSome then defaults else o',
   options.map fun _ => o')

/-- Host math over the reals: the intended semantics of the JavaScript
`Math` functions, `atan2 y x` being the argument of the complex number
`x + y·i`. -/
noncomputable def realTrig : TrigOps ℝ where
  cos := Real.cos
  sin := Real.sin
  atan2 := fun y x => Complex.arg ⟨x, y⟩
  sqrt := Real.sqrt
  pi := Real.pi

/-- Trivial rational trig table used only to evaluate structural facts about
the synthesizer on concrete inputs (those facts hold for every `TrigOps`). -/
def qTrig : TrigOps ℚ where
  cos := fun _ => 0
  sin := fun _ => 0
  atan2 := fun _ _ => 0
  sqrt := fun _ => 0
  pi := 0

/-- Constant number formatter used for concrete evaluations of the
synthesizer (the structural facts hold for every formatter whose output
avoids the command letters and the comma). -/
def constNs : ℚ → String := fun _ => "0"

/-- Concatenation of a list of strings. -/
def joinStr : List String → String
  | [] => ""
  | s :: rest => s ++ joinStr rest

/-- Number of occurrences of a character in a string. -/
def countChar (s : String) (c : Char) : ℕ := s.data.count c

theorem JsNum.mul_def (a b : JsNum) : a * b = JsNum.mul a b := rfl

theorem JsNum.div_def (a b : JsNum) : a / b = JsNum.div a b := rfl

@[simp] theorem JsNum.num_mul_num (a b : ℚ) :
    JsNum.num a * JsNum.num b = JsNum.num (a * b) := rfl

@[simp] theorem JsNum.num_mul_nan (a : ℚ) :
    JsNum.num a * JsNum.nan = JsNum.nan := rfl

@[simp] theorem JsNum.nan_mul (x : JsNum) : JsNum.nan * x = JsNum.nan := by
  cases x <;> rfl

@[simp] theorem JsNum.nan_div (x : JsNum) : JsNum.nan / x = JsNum.nan := by
  cases x <;> rfl

@[simp] theorem JsNum.num_div_num (a b : ℚ) :
    JsNum.num a / JsNum.num b =
      if b = 0 then (if a = 0 then JsNum.nan else if 0 < a then JsNum.inf else JsNum.ninf)
      else JsNum.num (a / b) := rfl

theorem JsNum.num_div_num_of_ne (a : ℚ) {b : ℚ} (h : b ≠ 0) :
    JsNum.num a / JsNum.num b = JsNum.num (a / b) := by
  simp [JsNum.div_def, JsNum.div, h]

@[simp] theorem JsNum.zero_div_zero :
    JsNum.num 0 / JsNum.num 0 = JsNum.nan := rfl

theorem mathMax_eq_max (a b : ℚ) : mathMax a b = max a b := (max_def a b).symm


theorem ratAbs_eq_abs (q : ℚ) : ratAbs q = |q| := by
  rcases lt_trichotomy q 0 with h | h | h
  · rw [ratAbs, if_pos h, abs_of_neg h]
  · simp [ratAbs, h]
  · rw [ratAbs, if_neg (not_lt.mpr h.le), abs_of_pos h]

theorem str_append_empty (s : String) : s ++ "" = s := by
  cases s
  simp

theorem countChar_append (a b : String) (c : Char) :
    countChar (a ++ b) c = countChar a c + countChar b c := by
  simp [countChar, String.data_append, List.count_append]

theorem countChar_eq_zero {s : String} {c : Char} (h : c ∉ s.data) :
    countChar s c = 0 := List.count_eq_zero.mpr h

theorem countChar_joinStr (L : List String) (c : Char) :
    countChar (joinStr L) c = (L.map fun s => countChar s c).sum := by
  induction L with
  | nil => simp [joinStr, countChar]
  | cons s rest ih => simp [joinStr, countChar_append, ih]

theorem sum_map_const {β : Type} (L : List β) (f : β → ℕ) (k : ℕ)
    (h : ∀ x ∈ L, f x = k) : (L.map f).sum = k * L.length := by
  induction L with
  | nil => simp
  | cons x tl ih =>
      rw [List.map_cons, List.sum_cons, h x (List.mem_cons_self x tl),
        ih (fun y hy => h y (List.mem_cons_of_mem _ hy)), List.length_cons]
      ring

theorem length_enumFrom_eq {β : Type} :
    ∀ (l : List β) (n : ℕ), (List.enumFrom n l).length = l.length := by
  intro l
  induction l with
  | nil => intro n; rfl
  | cons a tl ih => intro n; simp [List.enumFrom, ih]

theorem enumFrom_fst_ne_zero {β : Type} :
    ∀ (l : List β) (n : ℕ), ∀ x ∈ List.enumFrom (n + 1) l, x.1 ≠ 0 := by
  intro l
  induction l with
  | nil => intro n x hx; cases hx
  | cons a tl ih =>
      intro n x hx
      rcases hx with _ | hx
      · exact Nat.succ_ne_zero n
      · exact ih (n + 1) x (by assumption)

theorem enumFrom_map_val {β : Type} (f : β → String) :
    ∀ (l : List β) (n : ℕ),
      (List.enumFrom n l).map (fun ip => f ip.2) = l.map f := by
  intro l
  induction l with
  | nil => intro n; rfl
  | cons a tl ih => intro n; simp [List.enumFrom, ih]

/-- The indexed reduce of `getSvgPath`, on a block whose indices are all
positive, appends one separated segment per element. -/
theorem foldl_path_segments {β : Type} (m g : ℕ × β → String) :
    ∀ (l : List (ℕ × β)) (acc : String), (∀ x ∈ l, x.1 ≠ 0) →
      l.foldl (fun a ip => if ip.1 = 0 then m ip else a ++ " " ++ g ip) acc
        = acc ++ joinStr (l.map fun ip => " " ++ g ip) := by
  intro l
  induction l with
  | nil => intro acc _; simp [joinStr, str_append_empty]
  | cons x tl ih =>
      intro acc h
      have hx : x.1 ≠ 0 := h x (List.mem_cons_self _ _)
      rw [List.foldl_cons, if_neg hx, List.map_cons, joinStr,
        ih _ (fun y hy => h y (List.mem_cons_of_mem _ hy))]
      simp [String.append_assoc]

theorem getSvgPath_cons {α : Type} [Add α] [Sub α] [Mul α] [Zero α]
    (T : TrigOps α) (ns : α → String) (p : CartesianPoint α)
    (rest : List (CartesianPoint α)) (smooth : Bool) (smoothing : α) :
    getSvgPath T ns (p :: rest) smooth smoothing
      = ("M " ++ ns p.x ++ "," ++ ns p.y) ++
        joinStr ((List.enumFrom 1 rest).map fun ip =>
          " " ++ (if smooth then curved T ns smoothing (p :: rest) ip.2 ip.1
                  else straight ns ip.2)) := by
  show List.foldl _ "" ((0, p) :: List.enumFrom 1 rest) = _
  rw [List.foldl_cons]
  rw [if_pos rfl]
  exact foldl_path_segments _ _ _ _ (enumFrom_fst_ne_zero rest 0)

/-- Re-resolving an already-resolved scale is the identity, hence re-running
the projector with the written-back scale reproduces the first result. -/
theorem generateCartesianDetails_resolve (G : Geodesy) (points : List Coordinates)
    (acc : ℚ) (sc : Option ℚ) :
    generateCartesianDetails G points ⟨acc, some (resolvedScale G points acc sc)⟩
      = generateCartesianDetails G points ⟨acc, sc⟩ := by
  simp [generateCartesianDetails, scaledDims, multiplier, resolvedScale]

/-- `generateSvg` is likewise insensitive to replacing the scale option by
its resolved value. -/
theorem generateSvg_resolve (G : Geodesy) (T : TrigOps JsNum) (ns : JsNum → String)
    (points : List Coordinates) (o : SvgOptions) :
    generateSvg G T ns points
        { o with scale := some (resolvedScale G points o.accuracy o.scale) }
      = generateSvg G T ns points o := by
  simp [generateSvg, generateCartesianDetails_resolve]

/-- Claim C5: for every current/previous/next plane point (previous and next
defaulting to current when absent), smoothing factor and reverse flag, the
Bezier control point computed in smooth mode equals `current` offset by
`(cos(angle)·length, sin(angle)·length)`, where `angle` is
`atan2(next.y − previous.y, next.x − previous.x)` plus π exactly when
`reverse` is set, and `length` is the Euclidean norm of `next − previous`
(the modulus of the corresponding complex number) times the smoothing
factor. -/
theorem control_point_formula (smoothing : ℝ) (current : CartesianPoint ℝ)
    (previous next : Option (CartesianPoint ℝ)) (reverse : Bool) :
    controlPoint realTrig smoothing current previous next reverse =
      ⟨current.x +
          Real.cos
              (Complex.arg
                  ⟨(next.getD current).x - (previous.getD current).x,
                    (next.getD current).y - (previous.getD current).y⟩ +
                (if reverse then Real.pi else 0)) *
            (Complex.abs
                ⟨(next.getD current).x - (previous.getD current).x,
                  (next.getD current).y - (previous.getD current).y⟩ * smoothing),
        current.y +
          Real.sin
              (Complex.arg
                  ⟨(next.getD current).x - (previous.getD current).x,
                    (next.getD current).y - (previous.getD current).y⟩ +
                (if reverse then Real.pi else 0)) *
            (Complex.abs
                ⟨(next.getD current).x - (previous.getD current).x,
                  (next.getD current).y - (previous.getD current).y⟩ * smoothing)⟩ := by
  simp [controlPoint, realTrig, Complex.abs_apply, Complex.normSq_mk]

/-- Claim C10: the `svg.width`/`svg.height` overrides only reach the `width`,
`height` and `viewBox` attributes: `generateSvg` is the document template
around exactly the path string `generateSvgPath` produces for the same
points and options, and that path string does not depend on the overrides. -/
theorem svg_overrides_frame (G : Geodesy) (T : TrigOps JsNum) (ns : JsNum → String)
    (points : List Coordinates) (options : SvgOptions) :
    (generateSvg G T ns points options =
        svgDocument
          (ns ((options.svg.width.map JsNum.num).getD
            (generateCartesianDetails G points ⟨options.accuracy, options.scale⟩).width))
          (ns ((options.svg.height.map JsNum.num).getD
            (generateCartesianDetails G points ⟨options.accuracy, options.scale⟩).height))
          (generateSvgPath G T ns points options).path
          options.svg.fill options.svg.stroke
          (ns (JsNum.num options.svg.strokeWidth))
          options.svg.strokeLinecap
          (ns (JsNum.num options.svg.strokeMiterlimit)))
      ∧ ∀ w1 h1 w2 h2 : Option ℚ,
          (generateSvgPath G T ns points
              { options with svg := { options.svg with width := w1, height := h1 } }).path
            = (generateSvgPath G T ns points
              { options with svg := { options.svg with width := w2, height := h2 } }).path := by
  constructor
  · rfl
  · intro w1 h1 w2 h2
    rfl

/-- Claim C8: running the pipeline twice in a row on the same points with the same
configuration — either omitting options both times (so both calls use the
module defaults, including any scale the first call wrote into them) or
passing the same options record both times (in the state the first call
left it) — produces byte-identical documents. -/
theorem pipeline_deterministic_two_runs (G : Geodesy) (T : TrigOps JsNum)
    (ns : JsNum → String) (points : List Coordinates) (defaults : SvgOptions)
    (r : SvgOptions) :
    ((generateSvgFull G T ns points none
        (generateSvgFull G T ns points none defaults).2.1).1
      = (generateSvgFull G T ns points none defaults).1)
    ∧ ((generateSvgFull G T ns points
          (generateSvgFull G T ns points (some r) defaults).2.2
          (generateSvgFull G T ns points (some r) defaults).2.1).1
      = (generateSvgFull G T ns points (some r) defaults).1) := by
  constructor
  · simp [generateSvgFull]
    exact generateSvg_resolve G T ns points defaults
  · simp [generateSvgFull]
    exact generateSvg_resolve G T ns points r

/-- Claim C6: in straight mode the synthesizer returns the empty string on the
empty sequence, and otherwise `M x0,y0` followed by exactly one ` L xi,yi`
per subsequent point, in order — hence `n − 1` line-to commands for `n`
points. -/
theorem straight_path_structure {α : Type} [Add α] [Sub α] [Mul α] [Zero α]
    (T : TrigOps α) (ns : α → String) (s : α) (p : CartesianPoint α)
    (rest : List (CartesianPoint α)) (hL : ∀ a : α, 'L' ∉ (ns a).data) :
    getSvgPath T ns ([] : List (CartesianPoint α)) false s = ""
    ∧ getSvgPath T ns (p :: rest) false s
        = "M " ++ ns p.x ++ "," ++ ns p.y
            ++ joinStr (rest.map fun q => " L " ++ ns q.x ++ "," ++ ns q.y)
    ∧ countChar (getSvgPath T ns (p :: rest) false s) 'L' = rest.length := by
  have hseg : ∀ q : CartesianPoint α,
      " " ++ straight ns q = " L " ++ ns q.x ++ "," ++ ns q.y := by
    intro q
    apply String.ext
    simp [straight, String.data_append]
  have hpath : getSvgPath T ns (p :: rest) false s
      = "M " ++ ns p.x ++ "," ++ ns p.y
          ++ joinStr (rest.map fun q => " L " ++ ns q.x ++ "," ++ ns q.y) := by
    rw [getSvgPath_cons]
    simp only [if_neg (by simp : ¬ (false = true))]
    rw [enumFrom_map_val (fun q => " " ++ straight ns q) rest 1]
    simp only [hseg]
  refine ⟨rfl, hpath, ?_⟩
  rw [hpath]
  have hM0 : countChar ("M " ++ ns p.x ++ "," ++ ns p.y) 'L' = 0 := by
    simp only [countChar_append]
    rw [countChar_eq_zero (hL p.x), countChar_eq_zero (hL p.y)]
    rfl
  have hseg1 : ∀ q ∈ rest,
      ((fun t => countChar t 'L') ∘ fun q : CartesianPoint α =>
        " L " ++ ns q.x ++ "," ++ ns q.y) q = 1 := by
    intro q _
    simp only [Function.comp_apply, countChar_append]
    rw [countChar_eq_zero (hL q.x), countChar_eq_zero (hL q.y)]
    rfl
  rw [countChar_append, hM0, countChar_joinStr, List.map_map,
    sum_map_const _ _ 1 hseg1]
  omega

/-- Claim C6 witness: concrete straight-mode path for two points. -/
theorem straight_path_structure_witness :
    getSvgPath qTrig constNs ([⟨0,0⟩, ⟨1,1⟩] : List (CartesianPoint ℚ)) false (1/5)
        = "M 0,0 L 0,0"
    ∧ countChar (getSvgPath qTrig constNs ([⟨0,0⟩, ⟨1,1⟩] : List (CartesianPoint ℚ))
        false (1/5)) 'L' = 1 := by
  have h := straight_path_structure qTrig constNs (1/5) ⟨0,0⟩ [⟨1,1⟩]
    (by intro a; show 'L' ∉ ("0" : String).data; decide)
  exact ⟨by rw [h.2.1]; rfl, h.2.2⟩

/-- Claim C4: in smooth mode, for `n ≥ 1` points and any smoothing factor, the
path is the initial move-to followed by exactly `n − 1` cubic segments, each
of the form ` C x1,y1 x2,y2 x3,y3` carrying exactly three coordinate pairs
(so `n − 1` occurrences of `C` and `3(n − 1) + 1` commas in the path, for any
formatter that emits neither `C` nor a comma). -/
theorem smooth_path_structure {α : Type} [Add α] [Sub α] [Mul α] [Zero α]
    (T : TrigOps α) (ns : α → String) (s : α) (p : CartesianPoint α)
    (rest : List (CartesianPoint α))
    (hC : ∀ a : α, 'C' ∉ (ns a).data) (hcm : ∀ a : α, ',' ∉ (ns a).data) :
    countChar (getSvgPath T ns (p :: rest) true s) 'C' = rest.length
    ∧ countChar (getSvgPath T ns (p :: rest) true s) ',' = 3 * rest.length + 1
    ∧ ∃ segs : List String,
        getSvgPath T ns (p :: rest) true s
          = "M " ++ ns p.x ++ "," ++ ns p.y ++ joinStr segs
        ∧ segs.length = rest.length
        ∧ ∀ seg ∈ segs, ∃ a1 b1 a2 b2 a3 b3 : α,
            seg = " C " ++ ns a1 ++ "," ++ ns b1 ++ " " ++ ns a2 ++ "," ++ ns b2
              ++ " " ++ ns a3 ++ "," ++ ns b3 := by
  have hpath : getSvgPath T ns (p :: rest) true s
      = ("M " ++ ns p.x ++ "," ++ ns p.y) ++
        joinStr ((List.enumFrom 1 rest).map fun ip =>
          " " ++ curved T ns s (p :: rest) ip.2 ip.1) := by
    rw [getSvgPath_cons]
    simp
  have hlen : ((List.enumFrom 1 rest).map fun ip =>
      " " ++ curved T ns s (p :: rest) ip.2 ip.1).length = rest.length := by
    rw [List.length_map, length_enumFrom_eq]
  have hshape : ∀ seg ∈ (List.enumFrom 1 rest).map fun ip =>
      " " ++ curved T ns s (p :: rest) ip.2 ip.1,
      ∃ a1 b1 a2 b2 a3 b3 : α,
        seg = " C " ++ ns a1 ++ "," ++ ns b1 ++ " " ++ ns a2 ++ "," ++ ns b2
          ++ " " ++ ns a3 ++ "," ++ ns b3 := by
    intro seg hseg
    rw [List.mem_map] at hseg
    obtain ⟨ip, _, rfl⟩ := hseg
    refine ⟨(controlPoint T s ((jsGet (p :: rest) ((ip.1 : ℤ) - 1)).getD ip.2)
        (jsGet (p :: rest) ((ip.1 : ℤ) - 2)) (some ip.2) false).x,
      (controlPoint T s ((jsGet (p :: rest) ((ip.1 : ℤ) - 1)).getD ip.2)
        (jsGet (p :: rest) ((ip.1 : ℤ) - 2)) (some ip.2) false).y,
      (controlPoint T s ip.2 (jsGet (p :: rest) ((ip.1 : ℤ) - 1))
        (jsGet (p :: rest) ((ip.1 : ℤ) + 1)) true).x,
      (controlPoint T s ip.2 (jsGet (p :: rest) ((ip.1 : ℤ) - 1))
        (jsGet (p :: rest) ((ip.1 : ℤ) + 1)) true).y,
      ip.2.x, ip.2.y, ?_⟩
    apply String.ext
    simp [curved, String.data_append]
  have hcount1 : ∀ seg ∈ (List.enumFrom 1 rest).map fun ip =>
      " " ++ curved T ns s (p :: rest) ip.2 ip.1,
      (fun t => countChar t 'C') seg = 1 := by
    intro seg hs
    obtain ⟨a1, b1, a2, b2, a3, b3, rfl⟩ := hshape seg hs
    simp only [countChar_append]
    rw [countChar_eq_zero (hC a1), countChar_eq_zero (hC b1),
      countChar_eq_zero (hC a2), countChar_eq_zero (hC b2),
      countChar_eq_zero (hC a3), countChar_eq_zero (hC b3)]
    rfl
  have hcount3 : ∀ seg ∈ (List.enumFrom 1 rest).map fun ip =>
      " " ++ curved T ns s (p :: rest) ip.2 ip.1,
      (fun t => countChar t ',') seg = 3 := by
    intro seg hs
    obtain ⟨a1, b1, a2, b2, a3, b3, rfl⟩ := hshape seg hs
    simp only [countChar_append]
    rw [countChar_eq_zero (hcm a1), countChar_eq_zero (hcm b1),
      countChar_eq_zero (hcm a2), countChar_eq_zero (hcm b2),
      countChar_eq_zero (hcm a3), countChar_eq_zero (hcm b3)]
    rfl
  have hMC : countChar ("M " ++ ns p.x ++ "," ++ ns p.y) 'C' = 0 := by
    simp only [countChar_append]
    rw [countChar_eq_zero (hC p.x), countChar_eq_zero (hC p.y)]
    rfl
  have hMcm : countChar ("M " ++ ns p.x ++ "," ++ ns p.y) ',' = 1 := by
    simp only [countChar_append]
    rw [countChar_eq_zero (hcm p.x), countChar_eq_zero (hcm p.y)]
    rfl
  refine ⟨?_, ?_, _, hpath, hlen, hshape⟩
  · rw [hpath, countChar_append, hMC, countChar_joinStr,
      sum_map_const _ _ 1 hcount1, hlen]
    omega
  · rw [hpath, countChar_append, hMcm, countChar_joinStr,
      sum_map_const _ _ 3 hcount3, hlen]
    omega

/-- Claim C4 witness: concrete smooth-mode path for three points has two cubic
segments and seven coordinate-pair commas. -/
theorem smooth_path_structure_witness :
    countChar (getSvgPath qTrig constNs
      ([⟨0,0⟩, ⟨1,1⟩, ⟨2,0⟩] : List (CartesianPoint ℚ)) true (1/5)) 'C' = 2
    ∧ countChar (getSvgPath qTrig constNs
      ([⟨0,0⟩, ⟨1,1⟩, ⟨2,0⟩] : List (CartesianPoint ℚ)) true (1/5)) ',' = 7 := by
  have h := smooth_path_structure qTrig constNs (1/5) ⟨0,0⟩ [⟨1,1⟩, ⟨2,0⟩]
    (by intro a; show 'C' ∉ ("0" : String).data; decide)
    (by intro a; show ',' ∉ ("0" : String).data; decide)
  exact ⟨h.1, h.2.1⟩

theorem foldl_boundStep_lng {L : ℚ} :
    ∀ (ps : List Coordinates) (b : Bounds), (∀ q ∈ ps, q.longitude = L) →
      b.maxLng = L → b.minLng = L →
      (ps.foldl boundStep b).maxLng = L ∧ (ps.foldl boundStep b).minLng = L := by
  intro ps
  induction ps with
  | nil => intro b _ h1 h2; exact ⟨h1, h2⟩
  | cons q tl ih =>
      intro b hall h1 h2
      rw [List.foldl_cons]
      refine ih _ (fun r hr => hall r (List.mem_cons_of_mem _ hr)) ?_ ?_
      · show max b.maxLng q.longitude = L
        rw [h1, hall q (List.mem_cons_self _ _), max_self]
      · show min b.minLng q.longitude = L
        rw [h2, hall q (List.mem_cons_self _ _), min_self]

theorem foldl_boundStep_lat {A : ℚ} :
    ∀ (ps : List Coordinates) (b : Bounds), (∀ q ∈ ps, q.latitude = A) →
      b.maxLat = A → b.minLat = A →
      (ps.foldl boundStep b).maxLat = A ∧ (ps.foldl boundStep b).minLat = A := by
  intro ps
  induction ps with
  | nil => intro b _ h1 h2; exact ⟨h1, h2⟩
  | cons q tl ih =>
      intro b hall h1 h2
      rw [List.foldl_cons]
      refine ih _ (fun r hr => hall r (List.mem_cons_of_mem _ hr)) ?_ ?_
      · show max b.maxLat q.latitude = A
        rw [h1, hall q (List.mem_cons_self _ _), max_self]
      · show min b.minLat q.latitude = A
        rw [h2, hall q (List.mem_cons_self _ _), min_self]

theorem getBounds_lng_const {L : ℚ} (p : Coordinates) (ps : List Coordinates)
    (hall : ∀ q ∈ p :: ps, q.longitude = L) :
    (getBounds (p :: ps)).maxLng = L ∧ (getBounds (p :: ps)).minLng = L := by
  have hp := hall p (List.mem_cons_self _ _)
  exact foldl_boundStep_lng ps _
    (fun q hq => hall q (List.mem_cons_of_mem _ hq)) hp hp

theorem getBounds_lat_const {A : ℚ} (p : Coordinates) (ps : List Coordinates)
    (hall : ∀ q ∈ p :: ps, q.latitude = A) :
    (getBounds (p :: ps)).maxLat = A ∧ (getBounds (p :: ps)).minLat = A := by
  have hp := hall p (List.mem_cons_self _ _)
  exact foldl_boundStep_lat ps _
    (fun q hq => hall q (List.mem_cons_of_mem _ hq)) hp hp

/-- When both absolute dimensions vanish (all points coincide), the scaled
width is `NaN` and so is the multiplier. -/
theorem scaledDims_degenerate (G : Geodesy) (points : List Coordinates)
    (acc : ℚ) (sc : Option ℚ) (hw : absoluteWidth G points acc = 0)
    (hh : absoluteHeight G points acc = 0) :
    (scaledDims G points acc sc).1 = JsNum.nan
    ∧ multiplier G points acc sc = JsNum.nan := by
  have h1 : (scaledDims G points acc sc).1 = JsNum.nan := by
    rw [scaledDims]
    simp [hw, hh]
  refine ⟨h1, ?_⟩
  rw [multiplier, h1, hw]
  simp

/-- Claim C7: with the scale option omitted, the scale defaults to
`max(absoluteWidth, absoluteHeight)` and the rescaling step is the identity
on a non-degenerate input: the multiplier is `1`, the returned width and
height are the absolute dimensions, and every returned plane point is its
raw pair of perpendicular distances from the two axes. -/
theorem default_scale_identity (G : Geodesy) (points : List Coordinates)
    (acc : ℚ) (hw : 0 < absoluteWidth G points acc)
    (hh : 0 < absoluteHeight G points acc) :
    resolvedScale G points acc none
        = max (absoluteWidth G points acc) (absoluteHeight G points acc)
    ∧ multiplier G points acc none = JsNum.num 1
    ∧ (generateCartesianDetails G points ⟨acc, none⟩).width
        = JsNum.num (absoluteWidth G points acc)
    ∧ (generateCartesianDetails G points ⟨acc, none⟩).height
        = JsNum.num (absoluteHeight G points acc)
    ∧ (generateCartesianDetails G points ⟨acc, none⟩).points
        = points.map (fun p =>
            ⟨JsNum.num (G.distFromLine p (cornerNW (getBounds points))
                (cornerSW (getBounds points)) acc),
             JsNum.num (G.distFromLine p (cornerNW (getBounds points))
                (cornerNE (getBounds points)) acc)⟩) := by
  have hwne : absoluteWidth G points acc ≠ 0 := ne_of_gt hw
  have hhne : absoluteHeight G points acc ≠ 0 := ne_of_gt hh
  have hdims : scaledDims G points acc none
      = (JsNum.num (absoluteWidth G points acc),
         JsNum.num (absoluteHeight G points acc)) := by
    rw [scaledDims]
    rcases lt_or_le (absoluteHeight G points acc) (absoluteWidth G points acc)
      with hgt | hle
    · rw [if_pos hgt]
      have hsc : resolvedScale G points acc none = absoluteWidth G points acc := by
        rw [resolvedScale, Option.getD_none, mathMax, if_neg (not_le.mpr hgt)]
      rw [hsc, JsNum.num_div_num_of_ne _ hwne, JsNum.num_mul_num,
        mul_div_cancel₀ _ hwne]
    · rw [if_neg (not_lt.mpr hle)]
      have hsc : resolvedScale G points acc none = absoluteHeight G points acc := by
        rw [resolvedScale, Option.getD_none, mathMax, if_pos hle]
      rw [hsc, JsNum.num_div_num_of_ne _ hhne, JsNum.num_mul_num,
        mul_div_cancel₀ _ hhne]
  have hmult : multiplier G points acc none = JsNum.num 1 := by
    rw [multiplier, hdims]
    show JsNum.num (absoluteWidth G points acc)
        / JsNum.num (absoluteWidth G points acc) = JsNum.num 1
    rw [JsNum.num_div_num_of_ne _ hwne, div_self hwne]
  refine ⟨by rw [resolvedScale, Option.getD_none, mathMax_eq_max], hmult, ?_, ?_, ?_⟩
  · show (scaledDims G points acc none).1 = _
    rw [hdims]
  · show (scaledDims G points acc none).2 = _
    rw [hdims]
  · show points.map _ = _
    refine List.map_congr_left ?_
    intro p _
    show (⟨JsNum.num _ * multiplier G points acc none,
          JsNum.num _ * multiplier G points acc none⟩ : CartesianPoint JsNum) = _
    rw [hmult]
    simp

/-- Claim C7 witness: concrete non-degenerate input where the omitted scale leaves
every value unscaled. -/
theorem default_scale_identity_witness :
    (0 : ℚ) < absoluteWidth flatGeodesy [⟨0,0⟩, ⟨2,1⟩] (1/1000)
    ∧ (0 : ℚ) < absoluteHeight flatGeodesy [⟨0,0⟩, ⟨2,1⟩] (1/1000)
    ∧ multiplier flatGeodesy [⟨0,0⟩, ⟨2,1⟩] (1/1000) none = JsNum.num 1
    ∧ (generateCartesianDetails flatGeodesy [⟨0,0⟩, ⟨2,1⟩] ⟨1/1000, none⟩).width
        = JsNum.num (absoluteWidth flatGeodesy [⟨0,0⟩, ⟨2,1⟩] (1/1000)) := by
  have hw : (0 : ℚ) < absoluteWidth flatGeodesy [⟨0,0⟩, ⟨2,1⟩] (1/1000) := by
    norm_num [absoluteWidth, getBounds, boundStep, cornerNW, cornerNE,
      flatGeodesy, flatDist, ratAbs, max_def, min_def]
  have hh : (0 : ℚ) < absoluteHeight flatGeodesy [⟨0,0⟩, ⟨2,1⟩] (1/1000) := by
    norm_num [absoluteHeight, getBounds, boundStep, cornerNW, cornerSW,
      flatGeodesy, flatDist, ratAbs, max_def, min_def]
  have h := default_scale_identity flatGeodesy [⟨0,0⟩, ⟨2,1⟩] (1/1000) hw hh
  exact ⟨hw, hh, h.2.1, h.2.2.1⟩

/-- Claim C3 (amended): for every non-degenerate input and every *non-negative*
supplied scale `s`, the returned width and height are finite non-negative
numbers, their maximum is `s`, and they preserve the aspect ratio
`absoluteWidth : absoluteHeight` (stated as a cross-multiplication). -/
theorem scaled_dimensions_nonneg_max (G : Geodesy) (points : List Coordinates)
    (acc s : ℚ) (hw : 0 < absoluteWidth G points acc)
    (hh : 0 < absoluteHeight G points acc) (hs : 0 ≤ s) :
    ∃ w h : ℚ,
      (generateCartesianDetails G points ⟨acc, some s⟩).width = JsNum.num w
      ∧ (generateCartesianDetails G points ⟨acc, some s⟩).height = JsNum.num h
      ∧ 0 ≤ w ∧ 0 ≤ h ∧ max w h = s
      ∧ w * absoluteHeight G points acc = h * absoluteWidth G points acc := by
  have hwne : absoluteWidth G points acc ≠ 0 := ne_of_gt hw
  have hhne : absoluteHeight G points acc ≠ 0 := ne_of_gt hh
  have hsc : resolvedScale G points acc (some s) = s := rfl
  rcases lt_or_le (absoluteHeight G points acc) (absoluteWidth G points acc)
    with hgt | hle
  · refine ⟨s, s * (absoluteHeight G points acc / absoluteWidth G points acc),
      ?_, ?_, hs, ?_, ?_, ?_⟩
    · show (scaledDims G points acc (some s)).1 = _
      rw [scaledDims, if_pos hgt, hsc]
    · show (scaledDims G points acc (some s)).2 = _
      rw [scaledDims, if_pos hgt, hsc,
        JsNum.num_div_num_of_ne _ hwne, JsNum.num_mul_num]
    · exact mul_nonneg hs (div_nonneg hh.le hw.le)
    · refine max_eq_left ?_
      calc s * (absoluteHeight G points acc / absoluteWidth G points acc)
          ≤ s * 1 := by
            refine mul_le_mul_of_nonneg_left ?_ hs
            rw [div_le_one hw]
            exact hgt.le
        _ = s := mul_one s
    · field_simp
  · refine ⟨s * (absoluteWidth G points acc / absoluteHeight G points acc), s,
      ?_, ?_, ?_, hs, ?_, ?_⟩
    · show (scaledDims G points acc (some s)).1 = _
      rw [scaledDims, if_neg (not_lt.mpr hle), hsc,
        JsNum.num_div_num_of_ne _ hhne, JsNum.num_mul_num]
    · show (scaledDims G points acc (some s)).2 = _
      rw [scaledDims, if_neg (not_lt.mpr hle), hsc]
    · exact mul_nonneg hs (div_nonneg hw.le hh.le)
    · refine max_eq_right ?_
      calc s * (absoluteWidth G points acc / absoluteHeight G points acc)
          ≤ s * 1 := by
            refine mul_le_mul_of_nonneg_left ?_ hs
            rw [div_le_one hh]
            exact hle
        _ = s := mul_one s
    · field_simp

/-- Claim C3 counterexample: on a non-degenerate input with the supplied scale
`−1`, the returned width is `−1/2` and the height is `−1`: both are
negative, and their maximum (`−1/2`) differs from the supplied scale — the
claim as stated (with no sign restriction on the scale option) fails. -/
theorem scaled_dimensions_counterexample :
    (generateCartesianDetails flatGeodesy [⟨0,0⟩, ⟨2,1⟩]
        ⟨1/1000, some (-1)⟩).width = JsNum.num (-(1/2))
    ∧ (generateCartesianDetails flatGeodesy [⟨0,0⟩, ⟨2,1⟩]
        ⟨1/1000, some (-1)⟩).height = JsNum.num (-1)
    ∧ ¬ ((0 : ℚ) ≤ -(1/2))
    ∧ max (-(1/2) : ℚ) (-1) ≠ (-1 : ℚ) := by
  refine ⟨?_, ?_, by norm_num, by rw [max_eq_left (by norm_num)]; norm_num⟩
  · show (scaledDims flatGeodesy [⟨0,0⟩, ⟨2,1⟩] (1/1000) (some (-1))).1 = _
    norm_num [scaledDims, resolvedScale, absoluteWidth, absoluteHeight,
      getBounds, boundStep, cornerNW, cornerNE, cornerSW, flatGeodesy,
      flatDist, ratAbs, max_def, min_def]
  · show (scaledDims flatGeodesy [⟨0,0⟩, ⟨2,1⟩] (1/1000) (some (-1))).2 = _
    norm_num [scaledDims, resolvedScale, absoluteWidth, absoluteHeight,
      getBounds, boundStep, cornerNW, cornerNE, cornerSW, flatGeodesy,
      flatDist, ratAbs, max_def, min_def]

/-- Claim C3 witness: the amended statement at a concrete non-degenerate input
with the non-negative scale `10`. -/
theorem scaled_dimensions_nonneg_max_witness :
    (0 : ℚ) < absoluteWidth flatGeodesy [⟨0,0⟩, ⟨2,1⟩] (1/1000)
    ∧ (0 : ℚ) < absoluteHeight flatGeodesy [⟨0,0⟩, ⟨2,1⟩] (1/1000)
    ∧ ∃ w h : ℚ,
        (generateCartesianDetails flatGeodesy [⟨0,0⟩, ⟨2,1⟩]
            ⟨1/1000, some 10⟩).width = JsNum.num w
        ∧ (generateCartesianDetails flatGeodesy [⟨0,0⟩, ⟨2,1⟩]
            ⟨1/1000, some 10⟩).height = JsNum.num h
        ∧ 0 ≤ w ∧ 0 ≤ h ∧ max w h = 10
        ∧ w * absoluteHeight flatGeodesy [⟨0,0⟩, ⟨2,1⟩] (1/1000)
            = h * absoluteWidth flatGeodesy [⟨0,0⟩, ⟨2,1⟩] (1/1000) := by
  have hw : (0 : ℚ) < absoluteWidth flatGeodesy [⟨0,0⟩, ⟨2,1⟩] (1/1000) := by
    norm_num [absoluteWidth, getBounds, boundStep, cornerNW, cornerNE,
      flatGeodesy, flatDist, ratAbs, max_def, min_def]
  have hh : (0 : ℚ) < absoluteHeight flatGeodesy [⟨0,0⟩, ⟨2,1⟩] (1/1000) := by
    norm_num [absoluteHeight, getBounds, boundStep, cornerNW, cornerSW,
      flatGeodesy, flatDist, ratAbs, max_def, min_def]
  exact ⟨hw, hh, scaled_dimensions_nonneg_max flatGeodesy [⟨0,0⟩, ⟨2,1⟩]
    (1/1000) 10 hw hh (by norm_num)⟩

theorem headI_mem_self {β : Type} [Inhabited β] {l : List β} (h : l ≠ []) :
    l.headI ∈ l := by
  cases l with
  | nil => exact absurd rfl h
  | cons a t => exact List.mem_cons_self a t

/-- Claim C9: the divide-by-zero degeneracy is asymmetric.  If all points share
one longitude and the absolute height is positive, the multiplier is
`0 / 0 = NaN` and every returned coordinate is `NaN`; if instead all points
share one latitude and the absolute width is positive, the result is finite
with height `0` and every returned y-coordinate `0`. -/
theorem degeneracy_asymmetry :
    (∀ (G : Geodesy) (points : List Coordinates) (acc : ℚ) (sc : Option ℚ)
        (L : ℚ), (∀ p ∈ points, p.longitude = L) →
        0 < absoluteHeight G points acc →
        ∀ q ∈ (generateCartesianDetails G points ⟨acc, sc⟩).points,
          q.x = JsNum.nan ∧ q.y = JsNum.nan)
    ∧ (∀ (G : Geodesy) (points : List Coordinates) (acc : ℚ) (sc : Option ℚ)
        (A : ℚ), (∀ p ∈ points, p.latitude = A) →
        0 < absoluteWidth G points acc →
        (generateCartesianDetails G points ⟨acc, sc⟩).height = JsNum.num 0
        ∧ (∃ w : ℚ, (generateCartesianDetails G points ⟨acc, sc⟩).width
            = JsNum.num w)
        ∧ ∀ q ∈ (generateCartesianDetails G points ⟨acc, sc⟩).points,
            q.y = JsNum.num 0 ∧ ∃ xv : ℚ, q.x = JsNum.num xv) := by
  constructor
  · intro G points acc sc L hall hh
    match points with
    | [] => intro q hq; simp [generateCartesianDetails] at hq
    | p :: ps =>
      have hlng := getBounds_lng_const p ps hall
      have hnwne : cornerNW (getBounds (p :: ps)) = cornerNE (getBounds (p :: ps)) := by
        show (⟨_, _⟩ : Coordinates) = ⟨_, _⟩
        rw [hlng.1, hlng.2]
      have haw : absoluteWidth G (p :: ps) acc = 0 := by
        rw [absoluteWidth, hnwne, G.dist_self]
      have hhne : absoluteHeight G (p :: ps) acc ≠ 0 := ne_of_gt hh
      have hdims1 : (scaledDims G (p :: ps) acc sc).1 = JsNum.num 0 := by
        rw [scaledDims]
        rw [if_neg (by rw [haw]; exact fun hlt => absurd (hh.trans hlt) (lt_irrefl 0))]
        rw [haw, JsNum.num_div_num_of_ne _ hhne, JsNum.num_mul_num]
        rw [zero_div, mul_zero]
      have hmul : multiplier G (p :: ps) acc sc = JsNum.nan := by
        rw [multiplier, hdims1, haw]
        simp
      intro q hq
      rw [generateCartesianDetails] at hq
      simp only [List.mem_map] at hq
      obtain ⟨r, _, rfl⟩ := hq
      rw [hmul]
      simp
  · intro G points acc sc A hall hw
    match points with
    | [] =>
      have h0 : absoluteWidth G [] acc = 0 := G.dist_self _ _
      rw [h0] at hw
      exact absurd hw (lt_irrefl 0)
    | p :: ps =>
      have hlat := getBounds_lat_const p ps hall
      have hnwsw : cornerNW (getBounds (p :: ps)) = cornerSW (getBounds (p :: ps)) := by
        show (⟨_, _⟩ : Coordinates) = ⟨_, _⟩
        rw [hlat.1, hlat.2]
      have hah : absoluteHeight G (p :: ps) acc = 0 := by
        rw [absoluteHeight, hnwsw, G.dist_self]
      have hawne : absoluteWidth G (p :: ps) acc ≠ 0 := ne_of_gt hw
      have hlngne : (getBounds (p :: ps)).minLng ≠ (getBounds (p :: ps)).maxLng := by
        intro he
        have hnwne : cornerNW (getBounds (p :: ps)) = cornerNE (getBounds (p :: ps)) := by
          show (⟨_, _⟩ : Coordinates) = ⟨_, _⟩
          rw [he]
        rw [absoluteWidth, hnwne, G.dist_self] at hw
        exact absurd hw (lt_irrefl 0)
      have hcond : absoluteWidth G (p :: ps) acc > absoluteHeight G (p :: ps) acc := by
        rw [hah]; exact hw
      have hdims : scaledDims G (p :: ps) acc sc
          = (JsNum.num (resolvedScale G (p :: ps) acc sc), JsNum.num 0) := by
        rw [scaledDims, if_pos hcond, hah,
          JsNum.num_div_num_of_ne _ hawne, JsNum.num_mul_num]
        rw [zero_div, mul_zero]
      have hmul : multiplier G (p :: ps) acc sc
          = JsNum.num (resolvedScale G (p :: ps) acc sc / absoluteWidth G (p :: ps) acc) := by
        rw [multiplier, hdims]
        exact JsNum.num_div_num_of_ne _ hawne
      refine ⟨?_, ⟨resolvedScale G (p :: ps) acc sc, ?_⟩, ?_⟩
      · show (scaledDims G (p :: ps) acc sc).2 = _
        rw [hdims]
      · show (scaledDims G (p :: ps) acc sc).1 = _
        rw [hdims]
      · intro q hq
        rw [generateCartesianDetails] at hq
        simp only [List.mem_map] at hq
        obtain ⟨r, hr, rfl⟩ := hq
        have hdfl : G.distFromLine r (cornerNW (getBounds (p :: ps)))
            (cornerNE (getBounds (p :: ps))) acc = 0 := by
          refine G.distFromLine_on_lat r _ _ acc ?_ rfl hlngne
          show r.latitude = (getBounds (p :: ps)).maxLat
          rw [hall r hr, hlat.1]
        constructor
        · show JsNum.num (G.distFromLine r _ _ acc) * multiplier G (p :: ps) acc sc
            = JsNum.num 0
          rw [hdfl, hmul, JsNum.num_mul_num, zero_mul]
        · refine ⟨G.distFromLine r (cornerNW (getBounds (p :: ps)))
              (cornerSW (getBounds (p :: ps))) acc
            * (resolvedScale G (p :: ps) acc sc / absoluteWidth G (p :: ps) acc), ?_⟩
          show JsNum.num (G.distFromLine r _ _ acc) * multiplier G (p :: ps) acc sc = _
          rw [hmul, JsNum.num_mul_num]

/-- Claim C9 witness: a vertical two-point track yields `NaN` coordinates, a
horizontal one a finite result with height `0`. -/
theorem degeneracy_asymmetry_witness :
    (0 : ℚ) < absoluteHeight flatGeodesy [⟨0,0⟩, ⟨1,0⟩] (1/1000)
    ∧ (generateCartesianDetails flatGeodesy [⟨0,0⟩, ⟨1,0⟩]
        ⟨1/1000, none⟩).points.headI.x = JsNum.nan
    ∧ (0 : ℚ) < absoluteWidth flatGeodesy [⟨0,1⟩, ⟨0,3⟩] (1/1000)
    ∧ (generateCartesianDetails flatGeodesy [⟨0,1⟩, ⟨0,3⟩]
        ⟨1/1000, none⟩).height = JsNum.num 0 := by
  have hh : (0 : ℚ) < absoluteHeight flatGeodesy [⟨0,0⟩, ⟨1,0⟩] (1/1000) := by
    norm_num [absoluteHeight, getBounds, boundStep, cornerNW, cornerSW,
      flatGeodesy, flatDist, ratAbs, max_def, min_def]
  have hw : (0 : ℚ) < absoluteWidth flatGeodesy [⟨0,1⟩, ⟨0,3⟩] (1/1000) := by
    norm_num [absoluteWidth, getBounds, boundStep, cornerNW, cornerNE,
      flatGeodesy, flatDist, ratAbs, max_def, min_def]
  refine ⟨hh, ?_, hw, ?_⟩
  · have hA := degeneracy_asymmetry.1 flatGeodesy [⟨0,0⟩, ⟨1,0⟩] (1/1000) none 0
      (by intro p hp; fin_cases hp <;> rfl) hh
    exact (hA _ (headI_mem_self (by simp [generateCartesianDetails]))).1
  · exact (degeneracy_asymmetry.2 flatGeodesy [⟨0,1⟩, ⟨0,3⟩] (1/1000) none 0
      (by intro p hp; fin_cases hp <;> rfl) hw).1

/-- Claim C1 (amended): `generateCartesianDetails` performs no eager validation
and signals no typed failure: it is total, and on a degenerate input (a
non-empty list of identical points, for any options) it runs the geometry
and returns `NaN` as the width and as every coordinate of every returned
point. -/
theorem degenerate_input_yields_nan (G : Geodesy) (points : List Coordinates)
    (c : Coordinates) (opts : CartesianOptions) (hne : points ≠ [])
    (hall : ∀ p ∈ points, p = c) :
    (generateCartesianDetails G points opts).width = JsNum.nan
    ∧ ∀ q ∈ (generateCartesianDetails G points opts).points,
        q.x = JsNum.nan ∧ q.y = JsNum.nan := by
  match points with
  | [] => exact absurd rfl hne
  | p :: ps =>
    have hlats : ∀ q ∈ p :: ps, q.latitude = c.latitude := by
      intro q hq; rw [hall q hq]
    have hlngs : ∀ q ∈ p :: ps, q.longitude = c.longitude := by
      intro q hq; rw [hall q hq]
    have hlat := getBounds_lat_const p ps hlats
    have hlng := getBounds_lng_const p ps hlngs
    have hnwne : cornerNW (getBounds (p :: ps)) = cornerNE (getBounds (p :: ps)) := by
      show (⟨_, _⟩ : Coordinates) = ⟨_, _⟩
      rw [hlng.1, hlng.2]
    have hnwsw : cornerNW (getBounds (p :: ps)) = cornerSW (getBounds (p :: ps)) := by
      show (⟨_, _⟩ : Coordinates) = ⟨_, _⟩
      rw [hlat.1, hlat.2]
    have haw : absoluteWidth G (p :: ps) opts.accuracy = 0 := by
      rw [absoluteWidth, hnwne, G.dist_self]
    have hah : absoluteHeight G (p :: ps) opts.accuracy = 0 := by
      rw [absoluteHeight, hnwsw, G.dist_self]
    have hd := scaledDims_degenerate G (p :: ps) opts.accuracy opts.scale haw hah
    constructor
    · show (scaledDims G (p :: ps) opts.accuracy opts.scale).1 = JsNum.nan
      exact hd.1
    · intro q hq
      rw [generateCartesianDetails] at hq
      simp only [List.mem_map] at hq
      obtain ⟨r, _, rfl⟩ := hq
      rw [hd.2]
      simp

/-- Claim C1 counterexample: on the degenerate input `[(12,34), (12,34)]` with the
default options, `generateCartesianDetails` completes normally (no typed
failure exists in its result type) and returns `NaN` for the width and for
every coordinate — exactly the outcome the claim says is prevented. -/
theorem repeated_point_returns_nan_counterexample :
    (generateCartesianDetails flatGeodesy [⟨12,34⟩, ⟨12,34⟩]
        ⟨1/1000, none⟩).width = JsNum.nan
    ∧ (generateCartesianDetails flatGeodesy [⟨12,34⟩, ⟨12,34⟩]
        ⟨1/1000, none⟩).points
      = [⟨JsNum.nan, JsNum.nan⟩, ⟨JsNum.nan, JsNum.nan⟩] := by
  have haw : absoluteWidth flatGeodesy [⟨12,34⟩, ⟨12,34⟩] (1/1000) = 0 := by
    norm_num [absoluteWidth, getBounds, boundStep, cornerNW, cornerNE,
      flatGeodesy, flatDist, ratAbs, max_def, min_def]
  have hah : absoluteHeight flatGeodesy [⟨12,34⟩, ⟨12,34⟩] (1/1000) = 0 := by
    norm_num [absoluteHeight, getBounds, boundStep, cornerNW, cornerSW,
      flatGeodesy, flatDist, ratAbs, max_def, min_def]
  have hd := scaledDims_degenerate flatGeodesy [⟨12,34⟩, ⟨12,34⟩] (1/1000)
    none haw hah
  constructor
  · exact hd.1
  · show List.map _ _ = _
    rw [List.map_cons, List.map_cons, List.map_nil, hd.2]
    simp

/-- Claim C1 witness: the amended statement applied to the concrete repeated
point. -/
theorem degenerate_input_yields_nan_witness :
    ([⟨12,34⟩, ⟨12,34⟩] : List Coordinates) ≠ []
    ∧ (generateCartesianDetails flatGeodesy [⟨12,34⟩, ⟨12,34⟩]
        ⟨1/1000, none⟩).width = JsNum.nan := by
  refine ⟨by simp, ?_⟩
  exact (degenerate_input_yields_nan flatGeodesy [⟨12,34⟩, ⟨12,34⟩] ⟨12,34⟩
    ⟨1/1000, none⟩ (by simp) (by intro p hp; fin_cases hp <;> rfl)).1

/-- Claim C2: the write effect of `options.scale ??= ...` is observable across
invocations.  Starting from the pristine module defaults (accuracy `0.001`,
no scale), a no-options call on a track of extent 1 writes `scale = 1` into
the defaults; a subsequent no-options call on a track of extent 2 then
returns width 1 (reusing the first call's scale), whereas the same call
against pristine defaults returns width 2.  The caller-supplied record and
the module defaults are therefore not left unchanged, and a later
invocation on a different input is affected by an earlier one. -/
theorem default_options_mutation_bug :
    (generateCartesianDetailsFull flatGeodesy [⟨0,0⟩, ⟨1,1⟩] none
        ⟨1/1000, none⟩).2.1.scale = some 1
    ∧ (generateCartesianDetailsFull flatGeodesy [⟨0,0⟩, ⟨2,2⟩] none
        ((generateCartesianDetailsFull flatGeodesy [⟨0,0⟩, ⟨1,1⟩] none
          ⟨1/1000, none⟩).2.1)).1.width = JsNum.num 1
    ∧ (generateCartesianDetailsFull flatGeodesy [⟨0,0⟩, ⟨2,2⟩] none
        ⟨1/1000, none⟩).1.width = JsNum.num 2 := by
  norm_num [generateCartesianDetailsFull, generateCartesianDetails,
    scaledDims, multiplier, resolvedScale, mathMax, absoluteWidth,
    absoluteHeight, getBounds, boundStep, cornerNW, cornerNE, cornerSW,
    flatGeodesy, flatDist, flatDistFromLine, ratAbs, max_def, min_def]

end GeoSvg
